import Mathlib

/-!
Verification of the playback-state reconciliation and interaction logic of the
cantus "now playing" panel.

The Rust sources under `src/` are shallowly embedded below:
* `src/main.rs`: the shared `PlaybackState` store and the data model
  (`Track`, `CondensedPlaylist`), embedded as Lean structures; `HashSet`s of
  track ids become duplicate-free lists with set-like insert/remove, the
  `HashMap<PlaylistId, CondensedPlaylist>` becomes the list of its values.
* `src/spotify.rs`: the poller state (`SpotifyState`) and the two
  reconciliation steps `get_spotify_playback` / `get_spotify_queue`, embedded
  as pure state transformers.  The HTTP fetch is passed in as an `Option`
  argument (`none` = transport/parse failure or empty body); `Instant`s are
  milliseconds as `Nat`.
* `src/interaction.rs`: the local mutation routines `skip_to_track`,
  `update_star_rating`, `toggle_playlist_membership`, `toggle_playing`,
  `handle_scroll`, and the click dispatcher `handle_click`.  `f32` screen
  coordinates and fractional seek positions are embedded as `ℚ`.

Remote requests issued by the routines are returned as explicit values
(`Option` of a request description) instead of being performed; cache-only
side effects (artwork prefetch, artist metadata, particles) touch no field of
the shared playback state and are noted where omitted.
-/

namespace Cantus

/-- `ArrayString<22>` ids from src/main.rs, embedded as strings. -/
abbrev TrackId := String
abbrev PlaylistId := String
abbrev ArtistId := String
abbrev AlbumId := String

/-- `Album` (src/main.rs): id plus optional artwork url. -/
structure Album where
  id : AlbumId
  image : Option String
deriving DecidableEq, Repr

/-- `Artist` (src/main.rs). -/
structure Artist where
  id : ArtistId
  name : String
  image : Option String
deriving DecidableEq, Repr

/-- `Track` (src/main.rs). -/
structure Track where
  id : TrackId
  name : String
  album : Album
  artist : Artist
  durationMs : Nat
deriving DecidableEq, Repr

/-- `CondensedPlaylist` (src/main.rs); `tracks: HashSet<TrackId>` is embedded
as a list with set-like operations below. -/
structure CondensedPlaylist where
  id : PlaylistId
  name : String
  imageUrl : Option String
  tracks : List TrackId
  ratingIndex : Option Nat
  tracksTotal : Nat
  snapshotId : String
deriving DecidableEq, Repr

/-- `PlaybackState` (src/main.rs), the shared store.  `Instant` fields are
milliseconds as `Nat`; the playlist `HashMap` is its list of values. -/
structure PlaybackState where
  playing : Bool
  progress : Nat
  volume : Option Nat
  queue : List Track
  queueIndex : Nat
  playlists : List CondensedPlaylist
  interaction : Bool
  lastInteraction : Nat
  lastProgressUpdate : Nat
deriving DecidableEq, Repr

/-- `SpotifyState` (src/spotify.rs), the poller-private state. -/
structure SpotifyState where
  currentContext : Option String
  contextUpdated : Bool
  lastGrabbedPlayback : Nat
  lastGrabbedQueue : Nat
deriving DecidableEq, Repr

/-- `HashSet::insert` on a track-id set: add only if absent
(the returned "newly inserted" flag is `!s.contains x`). -/
def setInsert (s : List TrackId) (x : TrackId) : List TrackId :=
  if s.contains x then s else x :: s

/-- `HashSet::remove` on a track-id set. -/
def setRemove (s : List TrackId) (x : TrackId) : List TrackId :=
  s.filter (fun y => y != x)

/-- `Iterator::position` from the Rust standard library: index of the first
element satisfying the predicate. -/
def position (p : α → Bool) : List α → Option Nat
  | [] => none
  | a :: l => if p a then some 0 else (position p l).map (· + 1)

theorem position_lt_length {p : α → Bool} {l : List α} {i : Nat}
    (h : position p l = some i) : i < l.length := by
  induction l generalizing i with
  | nil => simp [position] at h
  | cons a l ih =>
    simp only [position] at h
    split at h
    · cases h
      simp only [List.length_cons]
      omega
    · cases hl : position p l with
      | none => rw [hl] at h; simp at h
      | some j =>
        rw [hl] at h
        simp only [Option.map_some'] at h
        cases h
        have hj := ih hl
        simp only [List.length_cons]
        omega

theorem position_eq_none {p : α → Bool} {l : List α}
    (h : ∀ a ∈ l, p a = false) : position p l = none := by
  induction l with
  | nil => rfl
  | cons a l ih =>
    simp only [position, h a (by simp)]
    simp only [Bool.false_eq_true, if_false]
    rw [ih (fun b hb => h b (by simp [hb]))]
    rfl

/-- `handle_scroll` (src/interaction.rs:206-224): volume scroll in 5% steps.
Returns the updated shared state together with the `set_volume` request the
spawned task would issue (`none` when nothing is dispatched).  The Rust u8
`saturating_add(5).min(100)` is `min (min (v + 5) 255) 100`, and u8
`saturating_sub` is truncated `Nat` subtraction. -/
def handleScroll (delta : Int) (state : PlaybackState) :
    PlaybackState × Option Nat :=
  let scrollDirection := delta.sign
  if scrollDirection = 0 then (state, none)
  else
    match state.volume with
    | none => (state, none)
    | some volume =>
      let volume' :=
        if scrollDirection < 0 then min (min (volume + 5) 255) 100
        else volume - 5
      ({ state with volume := some volume' }, some volume')

/-- The state component of `handle_scroll`, for iterating scroll events. -/
def applyScroll (delta : Int) (state : PlaybackState) : PlaybackState :=
  (handleScroll delta state).1

/-- `Device` (src/spotify.rs): `volume_percent: Option<u32>`. -/
structure Device where
  volumePercent : Option Nat
deriving DecidableEq, Repr

/-- `CurrentPlaybackContext` (src/spotify.rs): the parsed `me/player`
response.  `context` is the context uri when present. -/
structure CurrentPlaybackContext where
  device : Device
  context : Option String
  progressMs : Nat
  isPlaying : Bool
  item : Option Track
deriving DecidableEq, Repr

/-- `get_spotify_playback` (src/spotify.rs:525-577).  `now0` is the `Instant`
taken at entry, `fetch` the parsed response (`none` for a transport failure,
empty body or parse failure, all of which make the function return early),
`now1` the `Instant` retaken after the fetch.  The `v as u8` narrowing of the
device volume is `% 256`; `now.checked_sub(60s)` is truncated subtraction. -/
def getSpotifyPlayback (now0 : Nat) (fetch : Option CurrentPlaybackContext)
    (now1 : Nat) (sp : SpotifyState) (state : PlaybackState) :
    SpotifyState × PlaybackState :=
  if now0 < state.lastInteraction ∨ now0 < sp.lastGrabbedPlayback + 1000 then
    (sp, state)
  else
    match fetch with
    | none => (sp, state)
    | some currentPlayback =>
      let newContext := currentPlayback.context
      let queueDeadline := now1 - 60000
      let sp1 :=
        if sp.currentContext ≠ newContext then
          { sp with contextUpdated := true, currentContext := newContext,
                    lastGrabbedQueue := queueDeadline }
        else sp
      let (state1, sp2) :=
        match currentPlayback.item with
        | some track =>
          match position (fun t : Track => t.name == track.name) state.queue with
          | some i => ({ state with queueIndex := i }, sp1)
          | none => ({ state with queueIndex := 0 },
                     { sp1 with lastGrabbedQueue := queueDeadline })
        | none => (state, sp1)
      let state2 :=
        { state1 with volume := currentPlayback.device.volumePercent.map (· % 256) }
      let state3 :=
        if now1 ≥ state2.lastInteraction then
          { state2 with playing := currentPlayback.isPlaying,
                        progress := currentPlayback.progressMs }
        else state2
      ({ sp2 with lastGrabbedPlayback := now1 },
       { state3 with lastProgressUpdate := now1 })

/-- `get_spotify_queue` (src/spotify.rs:579-660).  `fetch` is the parsed
`me/player/queue` response as `(currently_playing, queue)`; `none` models a
fetch or parse failure, and a `none` currently-playing track also returns
early.  The artwork / artist prefetches touch only the image and artist
caches (never the shared playback state) and are omitted. -/
def getSpotifyQueue (now : Nat) (fetch : Option (Option Track × List Track))
    (sp : SpotifyState) (state : PlaybackState) :
    SpotifyState × PlaybackState :=
  if now < state.lastInteraction ∨ now < sp.lastGrabbedQueue + 15000 then
    (sp, state)
  else
    match fetch with
    | none => (sp, state)
    | some (none, _) => (sp, state)
    | some (some currentlyPlaying, upcoming) =>
      let newQueue : List Track := currentlyPlaying :: upcoming
      let currentTitle := currentlyPlaying.name
      match (if sp.contextUpdated then none
             else position (fun t : Track => t.name == currentTitle) state.queue) with
      | some newIndex =>
        ({ sp with lastGrabbedQueue := now },
         { state with queueIndex := newIndex,
                      queue := state.queue.take newIndex ++ newQueue })
      | none =>
        ({ sp with contextUpdated := false, lastGrabbedQueue := now },
         { state with queue := newQueue, queueIndex := 0 })

/-- `skip_to_track` (src/interaction.rs:421-498).  When the track id is not in
the queue the routine logs and returns with no mutation.  The fractional
`position` and the f32 seek arithmetic are embedded over `ℚ` (`0.05` is
`1/20`; `f32::round` is `round` on `ℚ`, exact except at .5 ties).  The
`me/player/next` / `previous` / `seek` requests follow the state writes and
touch no state. -/
def skipToTrack (now : Nat) (trackId : TrackId) (pos : ℚ) (alwaysSeek : Bool)
    (state : PlaybackState) : PlaybackState :=
  match position (fun t : Track => t.id == trackId) state.queue with
  | none => state
  | some positionInQueue =>
    let queueIndex := state.queueIndex
    let msLookup := state.queue.map (fun t => t.durationMs)
    let state1 :=
      if queueIndex ≠ positionInQueue then
        { state with queueIndex := positionInQueue, progress := 0,
                     lastProgressUpdate := now,
                     lastInteraction := now + 2000 }
      else state
    if queueIndex = positionInQueue ∨ alwaysSeek then
      let songMs := msLookup.getD positionInQueue 0
      let milliseconds : ℚ :=
        if pos < 1 / 20 then 0 else (songMs : ℚ) * pos
      { state1 with progress := (round milliseconds).toNat,
                    lastProgressUpdate := now,
                    lastInteraction := now + 2000 }
    else state1

/-- The per-playlist body of the `for_each` in `update_star_rating`
(src/interaction.rs:514-526): remove the track from every other rating
playlist, insert it into the playlist holding the requested slot. -/
def ratingUpdate (trackId : TrackId) (ratingSlot : Nat)
    (playlist : CondensedPlaylist) : CondensedPlaylist :=
  let p1 :=
    if playlist.ratingIndex.isSome ∧ playlist.ratingIndex ≠ some ratingSlot then
      { playlist with tracks := setRemove playlist.tracks trackId }
    else playlist
  if p1.ratingIndex = some ratingSlot then
    { p1 with tracks := setInsert p1.tracks trackId }
  else p1

/-- `update_star_rating` (src/interaction.rs:501-527), local mutation only:
the per-playlist remove/insert and the `last_interaction` extension.  The
remote playlist edits and the liked-songs sync read the flags returned by the
set operations and perform no further state writes. -/
def updateStarRating (ratingsEnabled : Bool) (now : Nat) (trackId : TrackId)
    (ratingSlot : Nat) (state : PlaybackState) : PlaybackState :=
  if !ratingsEnabled then state
  else
    { state with
      lastInteraction := now + 500,
      playlists := state.playlists.map (ratingUpdate trackId ratingSlot) }

/-- `toggle_playlist_membership` (src/interaction.rs:590-646), local mutation
only.  A missing playlist logs and returns; otherwise the entry with the
given id (unique, as a `HashMap` key) has the track toggled and
`last_interaction` is extended.  The remote add/remove request follows. -/
def togglePlaylistMembership (now : Nat) (trackId : TrackId)
    (playlistId : PlaylistId) (state : PlaybackState) : PlaybackState :=
  match state.playlists.find? (fun p => p.id == playlistId) with
  | none => state
  | some pl =>
    let contained := pl.tracks.contains trackId
    { state with
      playlists := state.playlists.map (fun p =>
        if p.id = playlistId then
          if contained then { p with tracks := setRemove p.tracks trackId }
          else { p with tracks := setInsert p.tracks trackId }
        else p),
      lastInteraction := now + 500 }

/-- `toggle_playing` (src/interaction.rs:649-667), local mutation only: it
writes the `playing` flag and nothing else before the `me/player/play` /
`pause` request. -/
def togglePlaying (play : Bool) (state : PlaybackState) : PlaybackState :=
  { state with playing := play }

/-- `Point` (src/render.rs), with f32 coordinates embedded as `ℚ`. -/
structure Point where
  x : ℚ
  y : ℚ
deriving DecidableEq, Repr

/-- `Rect` (src/render.rs). -/
structure Rect where
  x0 : ℚ
  y0 : ℚ
  x1 : ℚ
  y1 : ℚ
deriving DecidableEq, Repr

/-- `Rect::contains` (src/render.rs:35-37). -/
def Rect.containsPt (r : Rect) (p : Point) : Bool :=
  p.x ≥ r.x0 && p.x ≤ r.x1 && p.y ≥ r.y0 && p.y ≤ r.y1

/-- `IconHitbox` (src/interaction.rs:15-20). -/
structure IconHitbox where
  rect : Rect
  trackId : TrackId
  playlistId : Option PlaylistId
  ratingIndex : Option Nat
deriving DecidableEq, Repr

/-- The fields of `InteractionState` that `handle_click` reads: the pointer
position and the hitboxes computed by the current frame's layout pass. -/
structure ClickContext where
  mousePosition : Point
  playHitbox : Rect
  trackHitboxes : List (TrackId × Rect × (ℚ × ℚ))
  iconHitboxes : List IconHitbox
deriving DecidableEq, Repr

/-- The background mutation task a click dispatches (the argument of the
`spawn` in each branch of `handle_click`). -/
inductive ClickAction where
  | rate (trackId : TrackId) (ratingSlot : Nat)
  | togglePlaylist (trackId : TrackId) (playlistId : PlaylistId)
  | togglePlay (play : Bool)
  | seek (trackId : TrackId) (pos : ℚ)
deriving DecidableEq, Repr

/-- `handle_click` (src/interaction.rs:110-190).  Returns the updated shared
playback state and the dispatched action, if any.  `CONFIG.ratings_enabled`
and `CONFIG.history_width` are passed in.  The particle burst on an icon
click and the `last_expansion` / `last_toggle_playing` animation timestamps
write only `CantusApp` render state, never the shared playback state, and are
omitted. -/
def handleClick (ratingsEnabled : Bool) (historyWidth : ℚ)
    (ctx : ClickContext) (state : PlaybackState) :
    PlaybackState × Option ClickAction :=
  let mousePos := ctx.mousePosition
  let playing := state.playing
  if state.interaction then (state, none)
  else
    let stateA := { state with interaction := true }
    let (stateB, action) :=
      match ctx.iconHitboxes.find? (fun h : IconHitbox => h.rect.containsPt mousePos) with
      | some hitbox =>
        match (if ratingsEnabled then hitbox.ratingIndex else none) with
        | some index =>
          let centerX := (hitbox.rect.x0 + hitbox.rect.x1) * (1 / 2)
          let ratingSlot := index * 2 + (if mousePos.x ≥ centerX then 1 else 0)
          (stateA, some (ClickAction.rate hitbox.trackId ratingSlot))
        | none =>
          match hitbox.playlistId with
          | some playlistId =>
            (stateA, some (ClickAction.togglePlaylist hitbox.trackId playlistId))
          | none => (stateA, none)
      | none =>
        if ctx.playHitbox.containsPt mousePos then
          (stateA, some (ClickAction.togglePlay (!playing)))
        else
          match ctx.trackHitboxes.reverse.find?
              (fun h : TrackId × Rect × (ℚ × ℚ) => h.2.1.containsPt mousePos) with
          | some (trackId, _, trackRangeA, trackRangeB) =>
            let pos : ℚ :=
              if mousePos.x < historyWidth + 40 then 0
              else (mousePos.x - trackRangeA) / (trackRangeB - trackRangeA)
            (stateA, some (ClickAction.seek trackId pos))
          | none => (stateA, none)
    ({ stateB with interaction := false }, action)

/-- The spec's index-bounds invariant: `queue_index < queue.len()` whenever
the queue is non-empty. -/
def QueueIndexInv (s : PlaybackState) : Prop :=
  s.queue ≠ [] → s.queueIndex < s.queue.length

/-! Concrete fixtures used by witnesses and counterexamples. -/

def albumA : Album := { id := "albumA", image := none }

def artistA : Artist := { id := "artistA", name := "Artist A", image := none }

def trackA : Track :=
  { id := "idA", name := "Song A", album := albumA, artist := artistA,
    durationMs := 200000 }

def trackB : Track :=
  { id := "idB", name := "Song B", album := albumA, artist := artistA,
    durationMs := 180000 }

def baseState : PlaybackState :=
  { playing := false, progress := 0, volume := none, queue := [],
    queueIndex := 0, playlists := [], interaction := false,
    lastInteraction := 0, lastProgressUpdate := 0 }

def baseSpotifyState : SpotifyState :=
  { currentContext := none, contextUpdated := false,
    lastGrabbedPlayback := 0, lastGrabbedQueue := 0 }

def ratedPlaylist : CondensedPlaylist :=
  { id := "pl2", name := "2.0", imageUrl := none, tracks := ["idA"],
    ratingIndex := some 2, tracksTotal := 1, snapshotId := "snap2" }

def targetPlaylist : CondensedPlaylist :=
  { id := "pl3", name := "2.5", imageUrl := none, tracks := [],
    ratingIndex := some 3, tracksTotal := 0, snapshotId := "snap3" }

def favePlaylist : CondensedPlaylist :=
  { id := "pl1", name := "Favourites", imageUrl := none, tracks := [],
    ratingIndex := none, tracksTotal := 0, snapshotId := "snap1" }

/-! ### Scroll steps (claim C6) -/

theorem applyScroll_pos_volume (state : PlaybackState) (v : Nat)
    (hv : state.volume = some v) :
    (applyScroll 1 state).volume = some (v - 5) := by
  simp [applyScroll, handleScroll, hv]

theorem applyScroll_neg_volume (state : PlaybackState) (v : Nat)
    (hv : state.volume = some v) :
    (applyScroll (-1) state).volume = some (min (min (v + 5) 255) 100) := by
  simp [applyScroll, handleScroll, hv]

theorem iterate_dec_volume (state : PlaybackState) (v : Nat)
    (hv : state.volume = some v) :
    ∀ n, ((applyScroll 1)^[n] state).volume = some (v - 5 * n) := by
  intro n
  induction n with
  | zero => simpa using hv
  | succ n ih =>
    rw [Function.iterate_succ_apply', applyScroll_pos_volume _ _ ih]
    congr 1

theorem iterate_inc_volume (state : PlaybackState)
    (hv : state.volume = some 0) :
    ∀ n, ((applyScroll (-1))^[n] state).volume = some (min (5 * n) 100) := by
  intro n
  induction n with
  | zero => simpa using hv
  | succ n ih =>
    rw [Function.iterate_succ_apply', applyScroll_neg_volume _ _ ih]
    congr 1
    omega

/-- C6: each scroll step moves the volume by exactly 5 in the direction of the
scroll sign, clamped to [0,100] (a positive delta decrements via u8
saturating subtraction, a negative delta increments capped at 100); iterating
the decrement from 100 passes through `100 - 5n`, hence reaches 0 after 20
steps and never leaves [0,100], and iterating the increment from 0 passes
through `min (5n) 100`, hence reaches 100 after 20 steps and never
exceeds 100. -/
theorem volume_scroll_clamp (state : PlaybackState) (v : Nat)
    (hv : state.volume = some v) (hle : v ≤ 100) :
    ((handleScroll 1 state).1.volume = some (v - 5) ∧
     (handleScroll (-1) state).1.volume = some (min (v + 5) 100)) ∧
    (∀ n, ((applyScroll 1)^[n] { state with volume := some 100 }).volume
        = some (100 - 5 * n)) ∧
    ((applyScroll 1)^[20] { state with volume := some 100 }).volume = some 0 ∧
    (∀ n, ((applyScroll (-1))^[n] { state with volume := some 0 }).volume
        = some (min (5 * n) 100)) ∧
    ((applyScroll (-1))^[20] { state with volume := some 0 }).volume
        = some 100 := by
  refine ⟨⟨applyScroll_pos_volume state v hv, ?_⟩, ?_, ?_, ?_, ?_⟩
  · refine (applyScroll_neg_volume state v hv).trans ?_
    congr 1
    omega
  · exact iterate_dec_volume _ 100 rfl
  · rw [iterate_dec_volume _ 100 rfl 20]
  · exact iterate_inc_volume _ rfl
  · rw [iterate_inc_volume _ rfl 20]
    decide

theorem volume_scroll_clamp_witness :
    ((applyScroll 1)^[20]
        { { baseState with volume := some 100 } with
          volume := some 100 }).volume = some 0 :=
  (volume_scroll_clamp { baseState with volume := some 100 } 100 rfl
    (by norm_num)).2.2.1

/-! ### Seek abort (claim C8) -/

/-- C8: if the requested track id occurs nowhere in the queue,
`skip_to_track` aborts after logging and the shared playback state is
returned entirely unchanged. -/
theorem skip_to_track_not_found_unchanged (now : Nat) (trackId : TrackId)
    (pos : ℚ) (alwaysSeek : Bool) (state : PlaybackState)
    (h : ∀ t ∈ state.queue, t.id ≠ trackId) :
    skipToTrack now trackId pos alwaysSeek state = state := by
  have hp : position (fun t : Track => t.id == trackId) state.queue = none :=
    position_eq_none (fun t ht => by
      simpa using h t ht)
  simp [skipToTrack, hp]

theorem skip_to_track_not_found_witness :
    skipToTrack 1000 "missing" (1 / 2) false
      { baseState with queue := [trackA, trackB] } =
      { baseState with queue := [trackA, trackB] } :=
  skip_to_track_not_found_unchanged 1000 "missing" (1 / 2) false
    { baseState with queue := [trackA, trackB] } (by decide)

/-! ### Scroll frame effect (claim C9) -/

/-- C9: `handle_scroll` with a missing volume or a zero delta returns the
state unchanged and dispatches no `set_volume` request; in every case the
returned state differs from the input at most in the `volume` field. -/
theorem handle_scroll_frame (delta : Int) (state : PlaybackState) :
    ((state.volume = none ∨ delta = 0) →
        handleScroll delta state = (state, none)) ∧
    (handleScroll delta state).1 =
      { state with volume := (handleScroll delta state).1.volume } := by
  constructor
  · rintro (hv | hd)
    · by_cases hs : delta.sign = 0
      · simp [handleScroll, hs]
      · simp [handleScroll, hs, hv]
    · subst hd
      simp [handleScroll]
  · cases state with
    | mk p pr vol q qi pls intr li lpu =>
      by_cases hs : delta.sign = 0
      · simp [handleScroll, hs]
      · cases vol with
        | none => simp [handleScroll, hs]
        | some v => simp [handleScroll, hs]

theorem handle_scroll_frame_witness :
    handleScroll 0 baseState = (baseState, none) :=
  (handle_scroll_frame 0 baseState).1 (Or.inr rfl)

/-! ### Click suppression (claim C10) -/

/-- C10: if the shared state's `interaction` flag is set when a click
resolves, `handle_click` returns immediately: no rating, playlist-toggle,
play/pause or seek task is dispatched and the playback state is untouched. -/
theorem handle_click_suppressed (ratingsEnabled : Bool) (historyWidth : ℚ)
    (ctx : ClickContext) (state : PlaybackState)
    (h : state.interaction = true) :
    handleClick ratingsEnabled historyWidth ctx state = (state, none) := by
  simp [handleClick, h]

theorem handle_click_suppressed_witness :
    handleClick true 396
      { mousePosition := { x := 0, y := 0 },
        playHitbox := { x0 := 0, y0 := 0, x1 := 0, y1 := 0 },
        trackHitboxes := [], iconHitboxes := [] }
      { baseState with interaction := true } =
      ({ baseState with interaction := true }, none) :=
  handle_click_suppressed true 396 _ _ rfl

/-! ### Poll debounce (claim C3) -/

/-- C3: whenever the current time is strictly before the stored
`last_interaction` deadline — at the entry check or at the write after the
fetch — `get_spotify_playback` leaves `playing` and `progress` untouched. -/
theorem playback_debounce (now0 now1 : Nat)
    (fetch : Option CurrentPlaybackContext) (sp : SpotifyState)
    (state : PlaybackState)
    (h : now0 < state.lastInteraction ∨ now1 < state.lastInteraction) :
    (getSpotifyPlayback now0 fetch now1 sp state).2.playing = state.playing ∧
    (getSpotifyPlayback now0 fetch now1 sp state).2.progress
      = state.progress := by
  by_cases hg : now0 < state.lastInteraction ∨
      now0 < sp.lastGrabbedPlayback + 1000
  · simp [getSpotifyPlayback, hg]
  · have h1 : now1 < state.lastInteraction := by
      rcases h with h | h
      · exact absurd (Or.inl h) hg
      · exact h
    have h2 : ¬ now1 ≥ state.lastInteraction := Nat.not_le.mpr h1
    cases fetch with
    | none => simp [getSpotifyPlayback, hg]
    | some cp =>
      cases hitem : cp.item with
      | none => simp [getSpotifyPlayback, hg, hitem, h2]
      | some track =>
        cases hpos : position (fun t : Track => t.name == track.name)
            state.queue with
        | none => simp [getSpotifyPlayback, hg, hitem, hpos, h2]
        | some i => simp [getSpotifyPlayback, hg, hitem, hpos, h2]

theorem playback_debounce_witness :
    (getSpotifyPlayback 2000
        (some { device := { volumePercent := some 80 }, context := none,
                progressMs := 9999, isPlaying := true, item := none })
        2000 baseSpotifyState
        { baseState with lastInteraction := 5000 }).2.playing = false :=
  (playback_debounce 2000 2000
    (some { device := { volumePercent := some 80 }, context := none,
            progressMs := 9999, isPlaying := true, item := none })
    baseSpotifyState { baseState with lastInteraction := 5000 }
    (Or.inl (by norm_num))).1

/-! ### Queue reconciliation (claims C1 and C5) -/

/-- The claim C1 as stated is false: a pending context change (the
`context_updated` flag set by `get_spotify_playback`) makes
`get_spotify_queue` replace the queue wholesale even though the fetched
currently-playing track's name occurs in the old queue at index 1. -/
theorem queue_splice_context_counterexample :
    position (fun t : Track => t.name == trackB.name) [trackA, trackB]
      = some 1 ∧
    ¬ ((getSpotifyQueue 20000 (some (some trackB, []))
          { baseSpotifyState with contextUpdated := true }
          { baseState with queue := [trackA, trackB] }).2.queue =
        ([trackA, trackB].take 1 ++ [trackB]) ∧
       (getSpotifyQueue 20000 (some (some trackB, []))
          { baseSpotifyState with contextUpdated := true }
          { baseState with queue := [trackA, trackB] }).2.queueIndex = 1) := by
  decide

/-- C1 (amended): when no context change is pending
(`context_updated = false`) and the reconciliation actually runs (the
debounce and rate-limit guards do not skip it), finding the fetched
currently-playing track's name in the old queue at index `k` truncates the
old queue to its first `k` entries, splices the new snapshot after them, and
stores `k` as the queue index. -/
theorem queue_splice_preserves_history (now : Nat) (cp : Track)
    (upcoming : List Track) (sp : SpotifyState) (state : PlaybackState)
    (k : Nat) (hctx : sp.contextUpdated = false)
    (hnow : ¬ (now < state.lastInteraction ∨
        now < sp.lastGrabbedQueue + 15000))
    (hfind : position (fun t : Track => t.name == cp.name) state.queue
        = some k) :
    (getSpotifyQueue now (some (some cp, upcoming)) sp state).2.queue =
      state.queue.take k ++ (cp :: upcoming) ∧
    (getSpotifyQueue now (some (some cp, upcoming)) sp state).2.queueIndex
      = k := by
  simp [getSpotifyQueue, hnow, hctx, hfind]

theorem queue_splice_preserves_history_witness :
    (getSpotifyQueue 20000 (some (some trackB, [])) baseSpotifyState
        { baseState with queue := [trackA, trackB] }).2.queue =
      ([trackA, trackB].take 1 ++ (trackB :: [])) ∧
    (getSpotifyQueue 20000 (some (some trackB, [])) baseSpotifyState
        { baseState with queue := [trackA, trackB] }).2.queueIndex = 1 :=
  queue_splice_preserves_history 20000 trackB [] baseSpotifyState
    { baseState with queue := [trackA, trackB] } 1 rfl (by decide) (by decide)

/-- C5: when the fetched currently-playing track's name occurs nowhere in the
old queue, the queue is replaced wholesale by the new snapshot and the queue
index is reset to 0 (whatever the context flag says). -/
theorem queue_replace_wholesale (now : Nat) (cp : Track)
    (upcoming : List Track) (sp : SpotifyState) (state : PlaybackState)
    (hnow : ¬ (now < state.lastInteraction ∨
        now < sp.lastGrabbedQueue + 15000))
    (hnotfound : ∀ t ∈ state.queue, t.name ≠ cp.name) :
    (getSpotifyQueue now (some (some cp, upcoming)) sp state).2.queue
      = cp :: upcoming ∧
    (getSpotifyQueue now (some (some cp, upcoming)) sp state).2.queueIndex
      = 0 := by
  have hp : position (fun t : Track => t.name == cp.name) state.queue
      = none :=
    position_eq_none (fun t ht => by simpa using hnotfound t ht)
  cases hctx : sp.contextUpdated with
  | false => simp [getSpotifyQueue, hnow, hctx, hp]
  | true => simp [getSpotifyQueue, hnow, hctx]

theorem queue_replace_wholesale_witness :
    (getSpotifyQueue 20000 (some (some trackB, [trackA])) baseSpotifyState
        { baseState with queue := [trackA] }).2.queue
      = trackB :: [trackA] ∧
    (getSpotifyQueue 20000 (some (some trackB, [trackA])) baseSpotifyState
        { baseState with queue := [trackA] }).2.queueIndex = 0 :=
  queue_replace_wholesale 20000 trackB [trackA] baseSpotifyState
    { baseState with queue := [trackA] } (by decide) (by decide)

/-! ### Interaction deadlines (claim C2) -/

/-- The claim C2 as stated is false: `toggle_playing` writes its optimistic
`playing` flag and `handle_scroll` writes its optimistic volume while both
leave `last_interaction` exactly where it was (here 0, which is no future
deadline at all). -/
theorem mutation_deadline_counterexample :
    (togglePlaying true baseState).playing = true ∧
    (togglePlaying true baseState).lastInteraction
      = baseState.lastInteraction ∧
    (handleScroll 1 { baseState with volume := some 50 }).1.volume
      = some 45 ∧
    (handleScroll 1 { baseState with volume := some 50 }).1.lastInteraction
      = baseState.lastInteraction := by
  decide

/-- C2 (amended): the seek, rating-change and playlist-toggle routines set
`last_interaction` to a deadline 500ms-2000ms in the future (now + 2000ms
for seek, now + 500ms for the other two) in the same exclusive-lock write as
their optimistic state, before the remote request is issued; the play/pause
toggle and the volume-scroll routine leave `last_interaction` unchanged. -/
theorem mutation_deadline_amended :
    (∀ (now : Nat) (trackId : TrackId) (pos : ℚ) (alwaysSeek : Bool)
        (state : PlaybackState) (i : Nat),
      position (fun t : Track => t.id == trackId) state.queue = some i →
      (skipToTrack now trackId pos alwaysSeek state).lastInteraction
        = now + 2000) ∧
    (∀ (now : Nat) (trackId : TrackId) (ratingSlot : Nat)
        (state : PlaybackState),
      (updateStarRating true now trackId ratingSlot state).lastInteraction
        = now + 500) ∧
    (∀ (now : Nat) (trackId : TrackId) (playlistId : PlaylistId)
        (state : PlaybackState) (pl : CondensedPlaylist),
      state.playlists.find? (fun p => p.id == playlistId) = some pl →
      (togglePlaylistMembership now trackId playlistId state).lastInteraction
        = now + 500) ∧
    (∀ (play : Bool) (state : PlaybackState),
      (togglePlaying play state).lastInteraction = state.lastInteraction) ∧
    (∀ (delta : Int) (state : PlaybackState),
      (handleScroll delta state).1.lastInteraction
        = state.lastInteraction) := by
  refine ⟨?_, ?_, ?_, ?_, ?_⟩
  · intro now trackId pos alwaysSeek state i hfind
    by_cases heq : state.queueIndex = i
    · simp [skipToTrack, hfind, heq]
    · cases alwaysSeek with
      | false => simp [skipToTrack, hfind, heq]
      | true => simp [skipToTrack, hfind, heq]
  · intro now trackId ratingSlot state
    simp [updateStarRating]
  · intro now trackId playlistId state pl hfind
    simp [togglePlaylistMembership, hfind]
  · intro play state
    rfl
  · intro delta state
    by_cases hs : delta.sign = 0
    · simp [handleScroll, hs]
    · cases hv : state.volume with
      | none => simp [handleScroll, hs, hv]
      | some v => simp [handleScroll, hs, hv]

theorem mutation_deadline_amended_witness :
    (skipToTrack 1000 "idA" 0 false
        { baseState with queue := [trackA] }).lastInteraction = 3000 ∧
    (updateStarRating true 1000 "idA" 3 baseState).lastInteraction = 1500 ∧
    (togglePlaylistMembership 1000 "idA" "pl1"
        { baseState with playlists := [favePlaylist] }).lastInteraction
      = 1500 := by
  refine ⟨?_, ?_, ?_⟩
  · exact mutation_deadline_amended.1 1000 "idA" 0 false
      { baseState with queue := [trackA] } 0 (by decide)
  · exact mutation_deadline_amended.2.1 1000 "idA" 3 baseState
  · exact mutation_deadline_amended.2.2.1 1000 "idA" "pl1"
      { baseState with playlists := [favePlaylist] } favePlaylist (by decide)

/-! ### Queue-index bounds (claim C7) -/

theorem inv_getSpotifyPlayback (now0 : Nat)
    (fetch : Option CurrentPlaybackContext) (now1 : Nat) (sp : SpotifyState)
    (state : PlaybackState) (hinv : QueueIndexInv state) :
    QueueIndexInv (getSpotifyPlayback now0 fetch now1 sp state).2 := by
  by_cases hg : now0 < state.lastInteraction ∨
      now0 < sp.lastGrabbedPlayback + 1000
  · simpa [getSpotifyPlayback, hg] using hinv
  · cases fetch with
    | none => simpa [getSpotifyPlayback, hg] using hinv
    | some cp =>
      have hq : (getSpotifyPlayback now0 (some cp) now1 sp state).2.queue
          = state.queue := by
        by_cases hd : now1 ≥ state.lastInteraction <;>
          cases hitem : cp.item with
        | none => simp [getSpotifyPlayback, hg, hitem, hd]
        | some track =>
          cases hpos : position (fun t : Track => t.name == track.name)
              state.queue <;>
            simp [getSpotifyPlayback, hg, hitem, hpos, hd]
      cases hitem : cp.item with
      | none =>
        have hqi : (getSpotifyPlayback now0 (some cp) now1 sp
            state).2.queueIndex = state.queueIndex := by
          by_cases hd : now1 ≥ state.lastInteraction <;>
            simp [getSpotifyPlayback, hg, hitem, hd]
        intro hne
        rw [hq] at hne
        rw [hq, hqi]
        exact hinv hne
      | some track =>
        cases hpos : position (fun t : Track => t.name == track.name)
            state.queue with
        | none =>
          have hqi : (getSpotifyPlayback now0 (some cp) now1 sp
              state).2.queueIndex = 0 := by
            by_cases hd : now1 ≥ state.lastInteraction <;>
              simp [getSpotifyPlayback, hg, hitem, hpos, hd]
          intro hne
          rw [hq] at hne
          rw [hq, hqi]
          exact List.length_pos.mpr hne
        | some i =>
          have hqi : (getSpotifyPlayback now0 (some cp) now1 sp
              state).2.queueIndex = i := by
            by_cases hd : now1 ≥ state.lastInteraction <;>
              simp [getSpotifyPlayback, hg, hitem, hpos, hd]
          intro hne
          rw [hq, hqi]
          exact position_lt_length hpos

theorem inv_getSpotifyQueue (now : Nat)
    (fetch : Option (Option Track × List Track)) (sp : SpotifyState)
    (state : PlaybackState) (hinv : QueueIndexInv state) :
    QueueIndexInv (getSpotifyQueue now fetch sp state).2 := by
  by_cases hg : now < state.lastInteraction ∨
      now < sp.lastGrabbedQueue + 15000
  · simpa [getSpotifyQueue, hg] using hinv
  · match fetch with
    | none => simpa [getSpotifyQueue, hg] using hinv
    | some (none, upcoming) => simpa [getSpotifyQueue, hg] using hinv
    | some (some cp, upcoming) =>
      cases hctx : sp.contextUpdated with
      | true =>
        intro _
        simp [getSpotifyQueue, hg, hctx]
      | false =>
        cases hpos : position (fun t : Track => t.name == cp.name)
            state.queue with
        | none =>
          intro _
          simp [getSpotifyQueue, hg, hctx, hpos]
        | some k =>
          intro _
          have hk := position_lt_length hpos
          simp [getSpotifyQueue, hg, hctx, hpos]
          omega

theorem skipToTrack_found (now : Nat) (trackId : TrackId) (pos : ℚ)
    (alwaysSeek : Bool) (state : PlaybackState) (i : Nat)
    (h : position (fun t : Track => t.id == trackId) state.queue = some i) :
    (skipToTrack now trackId pos alwaysSeek state).queue = state.queue ∧
    (skipToTrack now trackId pos alwaysSeek state).queueIndex = i := by
  by_cases heq : state.queueIndex = i
  · simp [skipToTrack, h, heq]
  · cases alwaysSeek <;> simp [skipToTrack, h, heq]

theorem inv_skipToTrack (now : Nat) (trackId : TrackId) (pos : ℚ)
    (alwaysSeek : Bool) (state : PlaybackState)
    (hinv : QueueIndexInv state) :
    QueueIndexInv (skipToTrack now trackId pos alwaysSeek state) := by
  cases hpos : position (fun t : Track => t.id == trackId) state.queue with
  | none => simpa [skipToTrack, hpos] using hinv
  | some i =>
    obtain ⟨hq, hqi⟩ := skipToTrack_found now trackId pos alwaysSeek state i hpos
    intro hne
    rw [hq, hqi]
    exact position_lt_length hpos

/-- C7: the index-bounds invariant (`queue_index < queue.len()` whenever the
queue is non-empty) is preserved by each of the three operations that write
the queue or the queue index: the playback poll, the queue poll and the
seek routine. -/
theorem queue_index_invariant :
    (∀ (now0 : Nat) (fetch : Option CurrentPlaybackContext) (now1 : Nat)
        (sp : SpotifyState) (state : PlaybackState),
      QueueIndexInv state →
      QueueIndexInv (getSpotifyPlayback now0 fetch now1 sp state).2) ∧
    (∀ (now : Nat) (fetch : Option (Option Track × List Track))
        (sp : SpotifyState) (state : PlaybackState),
      QueueIndexInv state →
      QueueIndexInv (getSpotifyQueue now fetch sp state).2) ∧
    (∀ (now : Nat) (trackId : TrackId) (pos : ℚ) (alwaysSeek : Bool)
        (state : PlaybackState),
      QueueIndexInv state →
      QueueIndexInv (skipToTrack now trackId pos alwaysSeek state)) :=
  ⟨inv_getSpotifyPlayback, inv_getSpotifyQueue, inv_skipToTrack⟩

theorem queue_index_invariant_witness :
    QueueIndexInv (getSpotifyQueue 20000 (some (some trackB, []))
      baseSpotifyState { baseState with queue := [trackA, trackB] }).2 :=
  queue_index_invariant.2.1 20000 (some (some trackB, [])) baseSpotifyState
    { baseState with queue := [trackA, trackB] } (by intro _; decide)

/-! ### Rating mutual exclusion (claim C4) -/

theorem mem_setInsert_self (s : List TrackId) (x : TrackId) :
    x ∈ setInsert s x := by
  unfold setInsert
  split
  · next h => exact List.elem_iff.mp h
  · exact List.mem_cons_self x s

theorem not_mem_setRemove_self (s : List TrackId) (x : TrackId) :
    x ∉ setRemove s x := by
  unfold setRemove
  intro h
  have hx := (List.mem_filter.mp h).2
  simp at hx

theorem ratingUpdate_ratingIndex (trackId : TrackId) (ratingSlot : Nat)
    (q : CondensedPlaylist) :
    (ratingUpdate trackId ratingSlot q).ratingIndex = q.ratingIndex := by
  by_cases h1 : q.ratingIndex.isSome ∧ q.ratingIndex ≠ some ratingSlot
  · simp only [ratingUpdate, if_pos h1]
    split <;> rfl
  · simp only [ratingUpdate, if_neg h1]
    split <;> rfl

theorem ratingUpdate_mem_iff (trackId : TrackId) (ratingSlot : Nat)
    (q : CondensedPlaylist) (hq : q.ratingIndex.isSome = true) :
    (trackId ∈ (ratingUpdate trackId ratingSlot q).tracks ↔
      q.ratingIndex = some ratingSlot) := by
  by_cases h2 : q.ratingIndex = some ratingSlot
  · have h1 : ¬ (q.ratingIndex.isSome ∧ q.ratingIndex ≠ some ratingSlot) := by
      simp [h2]
    simp only [ratingUpdate, if_neg h1]
    rw [if_pos h2]
    simp [h2, mem_setInsert_self]
  · have h1 : q.ratingIndex.isSome ∧ q.ratingIndex ≠ some ratingSlot :=
      ⟨hq, h2⟩
    simp only [ratingUpdate, if_pos h1]
    have h2x : ¬ (({ q with tracks := setRemove q.tracks trackId } :
        CondensedPlaylist).ratingIndex = some ratingSlot) := h2
    rw [if_neg h2x]
    simpa [h2] using not_mem_setRemove_self q.tracks trackId

theorem countP_le_one_of_pairwise {p : α → Bool} {l : List α}
    (h : l.Pairwise (fun a b => p a = true → p b = false)) :
    l.countP p ≤ 1 := by
  induction l with
  | nil => simp
  | cons a l ih =>
    rw [List.countP_cons]
    rcases List.pairwise_cons.mp h with ⟨ha, hl⟩
    by_cases hp : p a = true
    · have h0 : l.countP p = 0 :=
        List.countP_eq_zero.mpr (fun b hb => by simp [ha b hb hp])
      rw [h0, if_pos hp]
    · have hle := ih hl
      rw [if_neg hp]
      omega

/-- C4: starting from a state where each rating slot is held by at most one
playlist, the local mutation of `update_star_rating(track, slot)` leaves the
track a member of at most one rating playlist; every rating playlist then
contains the track exactly when its slot equals the requested one, and if a
playlist holding the requested slot exists the track is a member of it. -/
theorem rating_mutual_exclusion (now : Nat) (trackId : TrackId)
    (ratingSlot : Nat) (state : PlaybackState)
    (huniq : state.playlists.Pairwise
      (fun p q => p.ratingIndex.isSome = true →
        p.ratingIndex ≠ q.ratingIndex)) :
    ((updateStarRating true now trackId ratingSlot state).playlists.countP
        (fun p => p.ratingIndex.isSome && p.tracks.contains trackId) ≤ 1) ∧
    (∀ p ∈ (updateStarRating true now trackId ratingSlot state).playlists,
      p.ratingIndex.isSome = true →
      (trackId ∈ p.tracks ↔ p.ratingIndex = some ratingSlot)) ∧
    ((∃ p ∈ state.playlists, p.ratingIndex = some ratingSlot) →
      ∃ p ∈ (updateStarRating true now trackId ratingSlot state).playlists,
        p.ratingIndex = some ratingSlot ∧ trackId ∈ p.tracks) := by
  have hplaylists : (updateStarRating true now trackId ratingSlot
      state).playlists
      = state.playlists.map (ratingUpdate trackId ratingSlot) := by
    simp [updateStarRating]
  refine ⟨?_, ?_, ?_⟩
  · rw [hplaylists, List.countP_map]
    have hmono : ∀ q ∈ state.playlists,
        ((fun p : CondensedPlaylist =>
            p.ratingIndex.isSome && p.tracks.contains trackId) ∘
          ratingUpdate trackId ratingSlot) q = true →
        (fun p : CondensedPlaylist =>
          p.ratingIndex == some ratingSlot) q = true := by
      intro q hq hpred
      simp only [Function.comp_apply, Bool.and_eq_true] at hpred
      obtain ⟨hsome, hcont⟩ := hpred
      rw [ratingUpdate_ratingIndex] at hsome
      have hmem : trackId ∈ (ratingUpdate trackId ratingSlot q).tracks :=
        List.elem_iff.mp hcont
      have hslot := (ratingUpdate_mem_iff trackId ratingSlot q hsome).mp hmem
      simpa using hslot
    refine le_trans (List.countP_mono_left hmono) ?_
    refine countP_le_one_of_pairwise (huniq.imp ?_)
    intro a b hab ha
    have ha' : a.ratingIndex = some ratingSlot := by simpa using ha
    have hsome : a.ratingIndex.isSome = true := by rw [ha']; rfl
    have hne := hab hsome
    rw [ha'] at hne
    have hbne : b.ratingIndex ≠ some ratingSlot := fun hb => hne hb.symm
    simpa using hbne
  · rw [hplaylists]
    intro p hp hsome
    obtain ⟨q, hq, rfl⟩ := List.mem_map.mp hp
    rw [ratingUpdate_ratingIndex] at hsome ⊢
    exact ratingUpdate_mem_iff trackId ratingSlot q hsome
  · rintro ⟨q, hq, hslot⟩
    rw [hplaylists]
    refine ⟨ratingUpdate trackId ratingSlot q,
      List.mem_map_of_mem _ hq, ?_, ?_⟩
    · rw [ratingUpdate_ratingIndex]
      exact hslot
    · exact (ratingUpdate_mem_iff trackId ratingSlot q
        (by rw [hslot]; rfl)).mpr hslot

theorem rating_mutual_exclusion_witness :
    ∃ p ∈ (updateStarRating true 1000 "idA" 3
        { baseState with
          playlists := [ratedPlaylist, targetPlaylist, favePlaylist] }).playlists,
      p.ratingIndex = some 3 ∧ "idA" ∈ p.tracks :=
  (rating_mutual_exclusion 1000 "idA" 3
    { baseState with
      playlists := [ratedPlaylist, targetPlaylist, favePlaylist] }
    (by decide)).2.2 ⟨targetPlaylist, by decide, by decide⟩

end Cantus
